import Mathlib

/-! Shallow embedding of the heuristic face/hand detection pipeline in
`src/components/face-hand-detector.tsx` of the Vis3D-ui repository.
JS numbers are modelled as exact rationals; a JS value that may be `NaN`
(e.g. arithmetic on an out-of-range array read, which yields `undefined`)
is modelled as `Option ℚ`, with `none` standing for `NaN`; every JS
comparison against `NaN` is `false`.  Pixel buffers (`Uint8ClampedArray`,
`Uint8Array`) are lists of naturals, and `a[i]` is `a[i]?`. -/

unseal Rat.mul Rat.add Rat.inv Rat.ofScientific Rat.sub

set_option maxRecDepth 4000

namespace Vis3D

/-- Lift an optional byte read to an optional rational (`undefined` → `NaN`). -/
def jnum (o : Option ℕ) : Option ℚ := o.map fun n => (n : ℚ)

/-- `NaN`-propagating addition. -/
def jadd : Option ℚ → Option ℚ → Option ℚ
  | some a, some b => some (a + b)
  | _, _ => none

/-- `NaN`-propagating subtraction. -/
def jsub : Option ℚ → Option ℚ → Option ℚ
  | some a, some b => some (a - b)
  | _, _ => none

/-- `NaN`-propagating absolute value (`Math.abs`). -/
def jabs (o : Option ℚ) : Option ℚ := o.map fun q => |q|

/-- `NaN`-propagating division by a constant; call sites guarantee `c ≠ 0`. -/
def jdiv (o : Option ℚ) (c : ℚ) : Option ℚ := o.map fun q => q / c

/-- JS comparison `c < o`: `false` when `o` is `NaN`. -/
def jlt (c : ℚ) (o : Option ℚ) : Bool :=
  match o with
  | some v => decide (c < v)
  | none => false

/-- An axis-aligned rectangle `{x, y, width, height}` as used throughout the
detector (regions, motion blocks, skin blocks, candidates). -/
structure Region where
  x : ℚ
  y : ℚ
  width : ℚ
  height : ℚ
deriving DecidableEq

/-- Source `calculateOverlap` (face-hand-detector.tsx, lines 401-418):
intersection-over-union of two rectangles, `0` when they do not intersect. -/
def calculateOverlap (rect1 rect2 : Region) : ℚ :=
  let x1 := max rect1.x rect2.x
  let y1 := max rect1.y rect2.y
  let x2 := min (rect1.x + rect1.width) (rect2.x + rect2.width)
  let y2 := min (rect1.y + rect1.height) (rect2.y + rect2.height)
  if x2 ≤ x1 ∨ y2 ≤ y1 then 0
  else
    let intersectionArea := (x2 - x1) * (y2 - y1)
    let rect1Area := rect1.width * rect1.height
    let rect2Area := rect2.width * rect2.height
    let unionArea := rect1Area + rect2Area - intersectionArea
    intersectionArea / unionArea

/-- Insert into a list that is already sorted by area descending, keeping the
new element before elements of equal area that came later in the original
list (stable, like `Array.prototype.sort` with comparator
`(a, b) => b.width * b.height - a.width * a.height`). -/
def insertByAreaDesc (r : Region) : List Region → List Region
  | [] => [r]
  | h :: t =>
    if h.width * h.height ≤ r.width * r.height then r :: h :: t
    else h :: insertByAreaDesc r t

/-- Stable sort by area, largest first (`faces.sort((a, b) => b·area - a·area)`). -/
def sortByAreaDesc (l : List Region) : List Region := l.foldr insertByAreaDesc []

/-- The accept loop of source `removeOverlappingFaces` (lines 380-396): walk
the sorted candidates, pushing a face onto `filtered` unless it overlaps an
already accepted face by more than `0.4`. -/
def acceptLoop (filtered : List Region) : List Region → List Region
  | [] => filtered
  | face :: rest =>
    if filtered.any fun other => decide (calculateOverlap face other > 0.4) then
      acceptLoop filtered rest
    else
      acceptLoop (filtered ++ [face]) rest

/-- Source `removeOverlappingFaces` (lines 376-399): sort by area descending,
greedily drop candidates overlapping an accepted one by more than `0.4`,
return the first three accepted (`filtered.slice(0, 3)`). -/
def removeOverlappingFaces (faces : List Region) : List Region :=
  (acceptLoop [] (sortByAreaDesc faces)).take 3

/-- The accept loop as worded by the spec: identical to `acceptLoop` except
that it stops outright once three candidates have been accepted. -/
def acceptLoopCapped (filtered : List Region) : List Region → List Region
  | [] => filtered
  | face :: rest =>
    if filtered.length = 3 then filtered
    else if filtered.any fun other => decide (calculateOverlap face other > 0.4) then
      acceptLoopCapped filtered rest
    else
      acceptLoopCapped (filtered ++ [face]) rest

/-- The suppression as worded by the spec (section 4.3): sort by area
descending, accept a candidate only if its overlap with every already
accepted candidate is at most `0.4`, and stop once three are accepted. -/
def removeOverlappingFacesSpec (faces : List Region) : List Region :=
  acceptLoopCapped [] (sortByAreaDesc faces)

/-- The fused region built by source `combineMotionAndSkin` (lines 541-551):
the axis-aligned bounding box of the union of a motion and a skin block. -/
def fuseRegion (motion skin : Region) : Region :=
  let minX := min motion.x skin.x
  let minY := min motion.y skin.y
  let maxX := max (motion.x + motion.width) (skin.x + skin.width)
  let maxY := max (motion.y + motion.height) (skin.y + skin.height)
  ⟨minX, minY, maxX - minX, maxY - minY⟩

/-- Source `combineMotionAndSkin` (lines 534-557): every (motion, skin) pair
whose overlap exceeds `0.25` contributes the bounding box of their union. -/
def combineMotionAndSkin (motionRegions skinRegions : List Region) : List Region :=
  motionRegions.flatMap fun motion =>
    skinRegions.filterMap fun skin =>
      if calculateOverlap motion skin > 0.25 then some (fuseRegion motion skin)
      else none

/-- Source `isHandLikeShape` (lines 559-563). -/
def isHandLikeShape (region : Region) : Bool :=
  let aspectRatio := region.width / region.height
  let area := region.width * region.height
  decide (aspectRatio > 0.4 ∧ aspectRatio < 2.5 ∧ area > 300 ∧ area < 8000)

/-- Source `rgbToYuv` (lines 503-508), returning `(y, u, v)`. -/
def rgbToYuv (r g b : ℚ) : ℚ × ℚ × ℚ :=
  (0.299 * r + 0.587 * g + 0.114 * b,
   -0.169 * r - 0.331 * g + 0.5 * b,
   0.5 * r - 0.419 * g - 0.081 * b)

/-- Truncation toward zero, as used by the JS `%` operator on numbers. -/
def ratTrunc (q : ℚ) : ℤ := if 0 ≤ q then ⌊q⌋ else ⌈q⌉

/-- The JS remainder `a % m` (sign follows the dividend). -/
def jsMod (a m : ℚ) : ℚ := a - m * (ratTrunc (a / m) : ℚ)

/-- Source `rgbToHsv` (lines 510-532), returning `(h, s, v)`; hue is the
rounded number of degrees, shifted by `360` when negative. -/
def rgbToHsv (r0 g0 b0 : ℚ) : ℚ × ℚ × ℚ :=
  let r := r0 / 255
  let g := g0 / 255
  let b := b0 / 255
  let maxv := max r (max g b)
  let minv := min r (min g b)
  let diff := maxv - minv
  let h0 : ℚ :=
    if diff = 0 then 0
    else if maxv = r then jsMod ((g - b) / diff) 6
    else if maxv = g then (b - r) / diff + 2
    else (r - g) / diff + 4
  let h1 : ℚ := (round (h0 * 60) : ℤ)
  let h := if h1 < 0 then h1 + 360 else h1
  let s := if maxv = 0 then 0 else diff / maxv
  (h, s, maxv)

/-- The YUV skin rule of source `isAdvancedSkinColor` (line 495). -/
def yuvSkinRule (r g b : ℚ) : Bool :=
  let yuv := rgbToYuv r g b
  decide (yuv.2.1 ≥ -20 ∧ yuv.2.1 ≤ 30 ∧ yuv.2.2 ≥ -15 ∧ yuv.2.2 ≤ 25)

/-- The HSV skin rule of source `isAdvancedSkinColor` (line 496). -/
def hsvSkinRule (r g b : ℚ) : Bool :=
  let hsv := rgbToHsv r g b
  decide (hsv.1 ≥ 0 ∧ hsv.1 ≤ 60 ∧ hsv.2.1 ≥ 0.2 ∧ hsv.2.1 ≤ 0.8)

/-- The RGB skin rule of source `isAdvancedSkinColor` (lines 497-498). -/
def rgbSkinRule (r g b : ℚ) : Bool :=
  decide (r > 85 ∧ g > 35 ∧ b > 15 ∧ max r (max g b) - min r (min g b) > 12 ∧
    |r - g| > 12 ∧ r > g ∧ r > b)

/-- Source `isAdvancedSkinColor` (lines 490-501): the OR of the three rules. -/
def isAdvancedSkinColor (r g b : ℚ) : Bool :=
  yuvSkinRule r g b || hsvSkinRule r g b || rgbSkinRule r g b

/-- Skin test on three possibly-`undefined` channel reads: any `NaN` makes
every comparison in every rule false. -/
def isAdvancedSkinColorOpt : Option ℚ → Option ℚ → Option ℚ → Bool
  | some r, some g, some b => isAdvancedSkinColor r g b
  | _, _, _ => false

/-- The per-pixel body of source `detectMotion`'s block loop (lines 435-444):
when `idx` is in both buffers, the grayscale-like averages `(R+G+B)/3` of the
two frames are compared and `|Δ|` accumulated together with the count; the
reads at `idx + 1` and `idx + 2` are unguarded, so they may contribute `NaN`. -/
def motionPixelStep (currentData previousData : List ℕ) (width y x dy : ℕ)
    (acc2 : Option ℚ × ℕ) (dx : ℕ) : Option ℚ × ℕ :=
  let idx := ((y + dy) * width + (x + dx)) * 4
  if idx < currentData.length ∧ idx < previousData.length then
    let currentGray := jdiv (jadd (jadd (jnum currentData[idx]?)
      (jnum currentData[idx + 1]?)) (jnum currentData[idx + 2]?)) 3
    let previousGray := jdiv (jadd (jadd (jnum previousData[idx]?)
      (jnum previousData[idx + 1]?)) (jnum previousData[idx + 2]?)) 3
    (jadd acc2.1 (jabs (jsub currentGray previousGray)), acc2.2 + 1)
  else acc2

/-- One row `dy` of the 16×16 block loop of source `detectMotion`. -/
def motionRowStep (currentData previousData : List ℕ) (width y x : ℕ)
    (acc : Option ℚ × ℕ) (dy : ℕ) : Option ℚ × ℕ :=
  (List.range 16).foldl (motionPixelStep currentData previousData width y x dy) acc

/-- The `(motionSum, pixelCount)` pair accumulated over one 16×16 block by
source `detectMotion` (lines 432-445). -/
def motionBlockStats (currentData previousData : List ℕ) (width x y : ℕ) : Option ℚ × ℕ :=
  (List.range 16).foldl (motionRowStep currentData previousData width y x)
    ((some 0 : Option ℚ), (0 : ℕ))

/-- Source `detectMotion` (lines 420-454): block-based frame differencing.
The loop `for (let y = 0; y < height - blockSize; y += blockSize)` visits the
multiples of `blockSize` that satisfy `y + blockSize < height` (strictly), in
increasing order; likewise for `x`.  A block is emitted when it has sampled
pixels and their average delta exceeds the threshold 25. -/
def detectMotion (currentData previousData : List ℕ) (width height : ℕ) : List Region :=
  let blockSize := 16
  let threshold : ℚ := 25
  let ys := (List.range height).filter fun y => y % blockSize == 0 && y + blockSize < height
  let xs := (List.range width).filter fun x => x % blockSize == 0 && x + blockSize < width
  ys.flatMap fun y =>
    xs.filterMap fun x =>
      let stats := motionBlockStats currentData previousData width x y
      if 0 < stats.2 ∧ jlt threshold (jdiv stats.1 (stats.2 : ℚ)) = true then
        some ⟨(x : ℚ), (y : ℚ), 16, 16⟩
      else none

/-- Source `detectSkinRegions` (lines 456-488): block-based skin-colour
segmentation with block size `12`; a block is kept when more than `0.65` of
its sampled pixels pass `isAdvancedSkinColor`. -/
def detectSkinRegions (data : List ℕ) (width height : ℕ) : List Region :=
  let blockSize := 12
  let dlen := data.length
  let ys := (List.range height).filter fun y => y % blockSize == 0 && y + blockSize < height
  let xs := (List.range width).filter fun x => x % blockSize == 0 && x + blockSize < width
  ys.flatMap fun y =>
    xs.filterMap fun x =>
      let stats := (List.range blockSize).foldl
        (fun acc dy =>
          (List.range blockSize).foldl
            (fun acc2 dx =>
              let idx := ((y + dy) * width + (x + dx)) * 4
              if idx < dlen then
                ((if isAdvancedSkinColorOpt (jnum data[idx]?) (jnum data[idx + 1]?)
                    (jnum data[idx + 2]?) then acc2.1 + 1 else acc2.1),
                 acc2.2 + 1)
              else acc2)
            acc)
        ((0 : ℕ), (0 : ℕ))
      if 0 < stats.2 ∧ ((stats.1 : ℚ) / (stats.2 : ℚ) > 0.65) then
        some ⟨(x : ℚ), (y : ℚ), 12, 12⟩
      else none

/-- Source `detectFallbackHands` (lines 261-299), restricted to the detection
pipeline: the working buffer `data` is the already-downsampled RGBA frame;
`previousFrame` is the retained previous working buffer (`previousFrameRef`),
`none` on the first processed tick.  Motion blocks require a previous frame;
candidates are fused, shape-filtered, and rescaled by `2`. -/
def detectFallbackHands (data : List ℕ) (previousFrame : Option (List ℕ))
    (width height : ℕ) : List Region :=
  let motionRegions : List Region :=
    match previousFrame with
    | some prev => detectMotion data prev width height
    | none => []
  let skinRegions := detectSkinRegions data width height
  let handCandidates := combineMotionAndSkin motionRegions skinRegions
  (handCandidates.filter isHandLikeShape).map fun region =>
    ⟨region.x * 2, region.y * 2, region.width * 2, region.height * 2⟩

/-- The grayscale conversion of source `detectFallbackFaces` (line 228):
`Math.round(0.299 * R + 0.587 * G + 0.114 * B)`; `Math.round` rounds half
toward positive infinity, which is Mathlib `round`. -/
def grayscale (r g b : ℚ) : ℤ := round (0.299 * r + 0.587 * g + 0.114 * b)

/-- The grayscale conversion loop of source `detectFallbackFaces` (lines
226-230) over one RGBA buffer: each full 4-byte pixel contributes its rounded
luma, stored into a `Uint8Array` (hence reduced mod 256); an incomplete
trailing chunk makes the luma `NaN`, which a `Uint8Array` stores as `0`. -/
def grayChunks : List ℕ → List ℕ
  | r :: g :: b :: _ :: rest => (grayscale r g b).toNat % 256 :: grayChunks rest
  | [] => []
  | _ => [0]

/-- The grayscale working buffer: a `Uint8Array(width * height)` filled by
`grayChunks`; writes past the end are discarded and unwritten cells stay 0. -/
def grayBuffer (data : List ℕ) (width height : ℕ) : List ℕ :=
  let conv := grayChunks data
  conv.take (width * height) ++ List.replicate (width * height - conv.length) 0

/-- The eye-band sampling loop of source `isFaceRegion` (lines 326-337):
one pass accumulating `(leftEyeSum, rightEyeSum, pixelCount)`, where a sample
pair is counted only when both the left and the right index are in bounds. -/
def eyeStats (grayData : List ℕ) (width x y size : ℕ) : ℚ × ℚ × ℕ :=
  let eyeRegionY := y + size / 4
  let eyeRegionHeight := size / 4
  let leftEyeX := x + size / 5
  let rightEyeX := x + size * 13 / 20
  let eyeWidth := size / 5
  (List.range eyeRegionHeight).foldl
    (fun acc dy =>
      (List.range eyeWidth).foldl
        (fun acc2 dx =>
          let leftIdx := (eyeRegionY + dy) * width + (leftEyeX + dx)
          let rightIdx := (eyeRegionY + dy) * width + (rightEyeX + dx)
          if leftIdx < grayData.length ∧ rightIdx < grayData.length then
            (acc2.1 + (grayData.getD leftIdx 0 : ℚ),
             acc2.2.1 + (grayData.getD rightIdx 0 : ℚ),
             acc2.2.2 + 1)
          else acc2)
        acc)
    ((0 : ℚ), (0 : ℚ), (0 : ℕ))

/-- A JS array read at a possibly fractional rational index: an integral
in-range index yields the element, anything else yields `undefined`/`NaN`. -/
def ratIndex (l : List ℕ) (q : ℚ) : Option ℚ :=
  if q.den = 1 ∧ 0 ≤ q.num then jnum l[q.num.toNat]? else none

/-- The forehead sampling loop of source `isFaceRegion` (lines 340-348):
`for (dy < eyeRegionHeight) for (dx < size * 0.6)` reading index
`(foreheadY + dy) * width + (x + size * 0.2 + dx)`, which is fractional when
`size` is not a multiple of 5 (the sum then becomes `NaN`); an index at or
past the end of the buffer is skipped without being counted. -/
def foreheadStats (grayData : List ℕ) (width x y size : ℕ) : Option ℚ :=
  let eyeRegionHeight := size / 4
  let foreheadY := y + size / 20
  let cols := (3 * size + 4) / 5
  (List.range eyeRegionHeight).foldl
    (fun acc dy =>
      (List.range cols).foldl
        (fun acc2 dx =>
          let idx : ℚ := ((foreheadY + dy) * width : ℕ) + ((x : ℚ) + (size : ℚ) * 0.2 + dx)
          if idx < (grayData.length : ℚ) then jadd acc2 (ratIndex grayData idx)
          else acc2)
        acc)
    (some 0)

/-- The mouth sampling loop of source `isFaceRegion` (lines 351-358); the
resulting average is computed by the source but never used in its decision. -/
def mouthStats (grayData : List ℕ) (width x y size : ℕ) : Option ℚ :=
  let mouthRegionY := y + size * 13 / 20
  let mouthRegionHeight := size / 5
  let cols := (2 * size + 4) / 5
  (List.range mouthRegionHeight).foldl
    (fun acc dy =>
      (List.range cols).foldl
        (fun acc2 dx =>
          let idx : ℚ := ((mouthRegionY + dy) * width : ℕ) + ((x : ℚ) + (size : ℚ) * 0.3 + dx)
          if idx < (grayData.length : ℚ) then jadd acc2 (ratIndex grayData idx)
          else acc2)
        acc)
    (some 0)

/-- Source `isFaceRegion` (lines 301-374).  The eye averages divide by the
shared in-bounds pair count; the forehead (and mouth) averages divide by the
nominal sample counts `eyeRegionHeight * size * 0.6` and
`mouthRegionHeight * size * 0.4` regardless of how many samples were
actually in bounds.  The `height` parameter is unused, as in the source. -/
def isFaceRegion (grayData : List ℕ) (width height x y size : ℕ) : Bool :=
  let _ := height
  let eyeRegionHeight := size / 4
  let mouthRegionHeight := size / 5
  let s := eyeStats grayData width x y size
  let leftEyeSum := s.1
  let rightEyeSum := s.2.1
  let pixelCount := s.2.2
  let foreheadSum := foreheadStats grayData width x y size
  let mouthSum := mouthStats grayData width x y size
  if pixelCount = 0 then false
  else
    let avgLeftEye := leftEyeSum / (pixelCount : ℚ)
    let avgRightEye := rightEyeSum / (pixelCount : ℚ)
    let avgForehead := jdiv foreheadSum ((eyeRegionHeight : ℚ) * (size : ℚ) * 0.6)
    let _avgMouth := jdiv mouthSum ((mouthRegionHeight : ℚ) * (size : ℚ) * 0.4)
    let eyesAreDark := decide (avgLeftEye < 110 ∧ avgRightEye < 110)
    let foreheadIsBright := jlt (avgLeftEye + 15) avgForehead &&
      jlt (avgRightEye + 15) avgForehead
    let symmetry := decide (|avgLeftEye - avgRightEye| < 25)
    let contrastCheck := jlt 20 (jsub avgForehead (some (min avgLeftEye avgRightEye)))
    eyesAreDark && foreheadIsBright && symmetry && contrastCheck

/-- The face-likeness score as the claim words it: every band's mean is the
sum of its in-bounds samples divided by the number of in-bounds samples, and
the window fails as soon as an eye band has no in-bounds sample.  Written for
comparison with `isFaceRegion`; the sampling grid is the source's. -/
def isFaceRegionSpec (grayData : List ℕ) (width height x y size : ℕ) : Bool :=
  let _ := height
  let eyeRegionY := y + size / 4
  let eyeRegionHeight := size / 4
  let leftEyeX := x + size / 5
  let rightEyeX := x + size * 13 / 20
  let eyeWidth := size / 5
  let band (startX : ℕ) (w : ℕ) (startY : ℕ) (rows : ℕ) : ℚ × ℕ :=
    (List.range rows).foldl
      (fun acc dy =>
        (List.range w).foldl
          (fun acc2 dx =>
            let idx := (startY + dy) * width + (startX + dx)
            if idx < grayData.length then
              (acc2.1 + (grayData.getD idx 0 : ℚ), acc2.2 + 1)
            else acc2)
          acc)
      ((0 : ℚ), (0 : ℕ))
  let left := band leftEyeX eyeWidth eyeRegionY eyeRegionHeight
  let right := band rightEyeX eyeWidth eyeRegionY eyeRegionHeight
  let forehead := band (x + size / 5) ((3 * size + 4) / 5) (y + size / 20) eyeRegionHeight
  if left.2 = 0 ∨ right.2 = 0 then false
  else
    let avgLeftEye := left.1 / (left.2 : ℚ)
    let avgRightEye := right.1 / (right.2 : ℚ)
    let avgForehead := if forehead.2 = 0 then 0 else forehead.1 / (forehead.2 : ℚ)
    decide (avgLeftEye < 110 ∧ avgRightEye < 110 ∧
      avgForehead > avgLeftEye + 15 ∧ avgForehead > avgRightEye + 15 ∧
      |avgLeftEye - avgRightEye| < 25 ∧
      avgForehead - min avgLeftEye avgRightEye > 20)

/-- Source `detectFallbackFaces` (lines 210-254), on the already-converted
grayscale working buffer of dimensions `width × height` (the half-resolution
canvas): multi-scale scan (`size` from 60 by 25 while
`size ≤ min(width, height) / 1.5`, positions stepping by 12 while the window
fits), candidates rescaled by 2, then overlap suppression. -/
def detectFallbackFaces (grayData : List ℕ) (width height : ℕ) : List Region :=
  let minFaceSize := 60
  let maxFaceSize : ℚ := (min width height : ℕ) / 1.5
  let stepSize := 12
  let sizes := (List.range (min width height + 1)).filter fun (s : ℕ) =>
    minFaceSize ≤ s && (s - minFaceSize) % 25 == 0 && decide ((s : ℚ) ≤ maxFaceSize)
  let faces := sizes.flatMap fun (size : ℕ) =>
    (((List.range (height + 1)).filter fun yy => yy % stepSize == 0 && yy + size ≤ height).flatMap
      fun (yy : ℕ) =>
        ((List.range (width + 1)).filter fun xx => xx % stepSize == 0 && xx + size ≤ width).filterMap
          fun (xx : ℕ) =>
            if isFaceRegion grayData width height xx yy size then
              some ⟨(xx : ℚ) * 2, (yy : ℚ) * 2, (size : ℚ) * 2, (size : ℚ) * 2⟩
            else none)
  removeOverlappingFaces faces

/-- The component state relevant to the lifecycle claims: the `isActive` and
`isDetecting` flags, the displayed counters, and `previousFrameRef`. -/
structure DetectorState where
  isActive : Bool
  isDetecting : Bool
  faces : ℕ
  hands : ℕ
  fps : ℕ
  previousFrame : Option (List ℕ)
deriving DecidableEq

/-- Source `toggleDetection` (lines 806-812).  The handler calls
`setIsDetecting(!isDetecting)` and then tests `if (!isDetecting)`; both read
the pre-event value of `isDetecting`, so the stats are zeroed exactly when
the pre-event value was `false`, i.e. on resume, not on pause. -/
def toggleDetection (s : DetectorState) : DetectorState :=
  if !s.isDetecting then
    { s with isDetecting := !s.isDetecting, faces := 0, hands := 0 }
  else
    { s with isDetecting := !s.isDetecting }

/-- Source `stopCamera` (lines 119-134): deactivates and zeroes the stats;
`previousFrameRef` is not touched anywhere in the handler. -/
def stopCamera (s : DetectorState) : DetectorState :=
  { s with isActive := false, faces := 0, hands := 0, fps := 0 }

/-- One animation tick (source `detectFrame`/`performRealTimeDetection`,
lines 136-188): when `isDetecting` is false the frame is not processed at
all; otherwise the heuristic pipeline runs on the working buffer `data`
(with its grayscale conversion) and the stats and the retained previous
frame are replaced. -/
def tick (s : DetectorState) (data : List ℕ) (width height : ℕ) : DetectorState :=
  if s.isDetecting then
    let faces := detectFallbackFaces (grayBuffer data width height) width height
    let hands := detectFallbackHands data s.previousFrame width height
    { s with faces := faces.length, hands := hands.length, previousFrame := some data }
  else s

/-- A grayscale buffer separating `isFaceRegion` from the claim's per-band
in-bounds averaging: a 20-wide strip of length 114 whose in-bounds eye-band
samples (indices 104-107 and 113) are dark (50) while every other pixel is
brighter (72); a window of size 20 at the origin extends past the end of the
buffer, so part of the forehead band and of the eye bands is out of bounds. -/
def faceProbeBuffer : List ℕ :=
  (List.range 114).map fun i =>
    if (104 ≤ i ∧ i ≤ 107) ∨ i = 113 then 50 else 72

/-- A complete 20×20 grayscale buffer with dark eye bands (40) on a bright
background (100): a size-20 window at the origin lies entirely in bounds, so
nominal and in-bounds sample counts coincide for every band. -/
def faceWindowBuffer : List ℕ :=
  (List.range 400).map fun i =>
    if 5 ≤ i / 20 ∧ i / 20 ≤ 9 ∧
        ((4 ≤ i % 20 ∧ i % 20 ≤ 7) ∨ (13 ≤ i % 20 ∧ i % 20 ≤ 16)) then 40 else 100

/-- An RGBA working buffer of dimensions `width × height` whose every byte is
`v`: the claim's frames that are entirely pixel value 0 or 255. -/
def fullFrame (v width height : ℕ) : List ℕ := List.replicate (width * height * 4) v

/-- C9: the skin classifier accepts RGB (200,80,60) under at least one of
the three rules (the HSV rule, and also RGB; YUV rejects it), and rejects
RGB (10,10,200) under all three rules. -/
theorem skin_rule_examples :
    (yuvSkinRule 200 80 60 = true ∨ hsvSkinRule 200 80 60 = true ∨
      rgbSkinRule 200 80 60 = true) ∧
    isAdvancedSkinColor 200 80 60 = true ∧
    yuvSkinRule 10 10 200 = false ∧ hsvSkinRule 10 10 200 = false ∧
    rgbSkinRule 10 10 200 = false ∧ isAdvancedSkinColor 10 10 200 = false := by
  exact ⟨Or.inr (Or.inl (by decide)), by decide, by decide, by decide, by decide, by decide⟩

/-- C8: for channels in [0,255] the grayscale conversion returns
`round(0.299 R + 0.587 G + 0.114 B)` and the result lies in [0,255]. -/
theorem grayscale_round_range (r g b : ℕ) (hr : r ≤ 255) (hg : g ≤ 255) (hb : b ≤ 255) :
    grayscale r g b = round (0.299 * (r : ℚ) + 0.587 * (g : ℚ) + 0.114 * (b : ℚ)) ∧
    0 ≤ grayscale r g b ∧ grayscale r g b ≤ 255 := by
  have hr' : (r : ℚ) ≤ 255 := by exact_mod_cast hr
  have hg' : (g : ℚ) ≤ 255 := by exact_mod_cast hg
  have hb' : (b : ℚ) ≤ 255 := by exact_mod_cast hb
  have h0 : (0 : ℚ) ≤ 0.299 * (r : ℚ) + 0.587 * (g : ℚ) + 0.114 * (b : ℚ) := by positivity
  have h255 : 0.299 * (r : ℚ) + 0.587 * (g : ℚ) + 0.114 * (b : ℚ) ≤ 255 := by linarith
  refine ⟨rfl, ?_, ?_⟩
  · unfold grayscale
    rw [round_eq]
    exact Int.le_floor.mpr (by push_cast; linarith)
  · unfold grayscale
    rw [round_eq]
    have hmono := Int.floor_le_floor
      (α := ℚ) (show 0.299 * (r : ℚ) + 0.587 * (g : ℚ) + 0.114 * (b : ℚ) + 1 / 2 ≤ 511 / 2 by
        linarith)
    have h511 : (⌊(511 / 2 : ℚ)⌋ : ℤ) = 255 := by decide
    omega

/-- Witness for C8 at the concrete triple (255, 0, 10). -/
theorem grayscale_round_range_witness :
    grayscale 255 0 10 = round (0.299 * (255 : ℚ) + 0.587 * (0 : ℚ) + 0.114 * (10 : ℚ)) ∧
    0 ≤ grayscale 255 0 10 ∧ grayscale 255 0 10 ≤ 255 := by
  have h := grayscale_round_range 255 0 10 (by decide) (by decide) (by decide)
  exact_mod_cast h

/-- C1 (counterexample): the motion block (0,0,16,16) and skin block
(8,8,12,12) named by the claim have IoU 4/21 ≤ 0.25, so this pair produces
no fused candidate. -/
theorem combineMotionAndSkin_pair_counterexample :
    ¬ (calculateOverlap ⟨0, 0, 16, 16⟩ ⟨8, 8, 12, 12⟩ > 0.25) ∧
    combineMotionAndSkin [⟨0, 0, 16, 16⟩] [⟨8, 8, 12, 12⟩] = [] := by decide

/-- Membership characterization of the fusion step: a region is produced
exactly when some motion/skin pair overlaps by more than 0.25 and the region
is the bounding box of that pair's union. -/
theorem mem_combineMotionAndSkin (motionRegions skinRegions : List Region) (r : Region) :
    r ∈ combineMotionAndSkin motionRegions skinRegions ↔
      ∃ m ∈ motionRegions, ∃ s ∈ skinRegions,
        calculateOverlap m s > 0.25 ∧ r = fuseRegion m s := by
  simp only [combineMotionAndSkin, List.mem_flatMap, List.mem_filterMap]
  constructor
  · rintro ⟨m, hm, s, hs, hf⟩
    by_cases h : calculateOverlap m s > 0.25
    · rw [if_pos h] at hf
      exact ⟨m, hm, s, hs, h, (Option.some_inj.mp hf).symm⟩
    · rw [if_neg h] at hf
      cases hf
  · rintro ⟨m, hm, s, hs, h, rfl⟩
    exact ⟨m, hm, s, hs, by rw [if_pos h]⟩

/-- C1 (amended): a fused candidate exists exactly for pairs with IoU above
0.25 and is the bounding box of the union; the claim's concrete pair
(0,0,16,16)/(8,8,12,12) has IoU 4/21, below the threshold, so it produces no
candidate (its bounding box would have been (0,0)-(20,20)); a pair that does
exceed the threshold, e.g. (0,0,16,16)/(4,4,12,12), fuses into the bounding
box of the union. -/
theorem combineMotionAndSkin_fusion :
    (∀ (motionRegions skinRegions : List Region) (r : Region),
      r ∈ combineMotionAndSkin motionRegions skinRegions ↔
        ∃ m ∈ motionRegions, ∃ s ∈ skinRegions,
          calculateOverlap m s > 0.25 ∧ r = fuseRegion m s) ∧
    calculateOverlap ⟨0, 0, 16, 16⟩ ⟨8, 8, 12, 12⟩ = 4 / 21 ∧
    combineMotionAndSkin [⟨0, 0, 16, 16⟩] [⟨8, 8, 12, 12⟩] = [] ∧
    fuseRegion ⟨0, 0, 16, 16⟩ ⟨8, 8, 12, 12⟩ = ⟨0, 0, 20, 20⟩ ∧
    calculateOverlap ⟨0, 0, 16, 16⟩ ⟨4, 4, 12, 12⟩ > 0.25 ∧
    combineMotionAndSkin [⟨0, 0, 16, 16⟩] [⟨4, 4, 12, 12⟩] = [⟨0, 0, 16, 16⟩] := by
  exact ⟨mem_combineMotionAndSkin, by decide, by decide, by decide, by decide, by decide⟩

/-- C10: on the first processed tick there is no previous frame, hence no
motion region, hence no fused candidate, hence no hand candidate at all. -/
theorem detectFallbackHands_firstTick (data : List ℕ) (width height : ℕ) :
    detectFallbackHands data none width height = [] := rfl

/-- C5 (counterexample): stopping from an active state with a retained
previous frame zeroes all counters but leaves the previous-frame buffer in
place, contradicting the claimed release. -/
theorem stopCamera_counterexample :
    (stopCamera ⟨true, true, 3, 2, 30, some [1, 2, 3]⟩).previousFrame = some [1, 2, 3] ∧
    ¬ (stopCamera ⟨true, true, 3, 2, 30, some [1, 2, 3]⟩).previousFrame = none ∧
    (stopCamera ⟨true, true, 3, 2, 30, some [1, 2, 3]⟩).faces = 0 ∧
    (stopCamera ⟨true, true, 3, 2, 30, some [1, 2, 3]⟩).hands = 0 ∧
    (stopCamera ⟨true, true, 3, 2, 30, some [1, 2, 3]⟩).fps = 0 := by decide

/-- C5 (amended): a stop request deactivates the camera and resets the face,
hand and fps counters to zero, but retains the previous-frame buffer
unchanged (it is only ever overwritten by the next detecting tick). -/
theorem stopCamera_amended (s : DetectorState) :
    (stopCamera s).isActive = false ∧ (stopCamera s).faces = 0 ∧
    (stopCamera s).hands = 0 ∧ (stopCamera s).fps = 0 ∧
    (stopCamera s).previousFrame = s.previousFrame ∧
    (stopCamera s).isDetecting = s.isDetecting :=
  ⟨rfl, rfl, rfl, rfl, rfl, rfl⟩

/-- C4 (counterexample): pausing from the detecting state (faces = 2,
hands = 1) leaves the last-known counts untouched; the handler's stale read
of `isDetecting` means the stats are zeroed on resume instead. -/
theorem toggleDetection_counterexample :
    (toggleDetection ⟨true, true, 2, 1, 30, none⟩).isDetecting = false ∧
    (toggleDetection ⟨true, true, 2, 1, 30, none⟩).faces = 2 ∧
    (toggleDetection ⟨true, true, 2, 1, 30, none⟩).hands = 1 := by decide

/-- C4 (amended): on the transition from Detecting to Paused the last-known
counts are retained; they are cleared to zero on the opposite transition,
from Paused to Detecting; and no per-frame processing occurs while Paused
(a tick in the paused state leaves the whole state unchanged). -/
theorem toggleDetection_amended (s : DetectorState) (data : List ℕ) (width height : ℕ) :
    (s.isDetecting = true → toggleDetection s = { s with isDetecting := false }) ∧
    (s.isDetecting = false →
      toggleDetection s = { s with isDetecting := true, faces := 0, hands := 0 }) ∧
    (s.isDetecting = false → tick s data width height = s) := by
  refine ⟨fun h => ?_, fun h => ?_, fun h => ?_⟩ <;>
    simp [toggleDetection, tick, h]

/-- Witness for C4 (amended) at concrete states: pausing keeps (2, 1),
resuming clears to (0, 0), and a paused tick is the identity. -/
theorem toggleDetection_amended_witness :
    toggleDetection ⟨true, true, 2, 1, 30, none⟩ = ⟨true, false, 2, 1, 30, none⟩ ∧
    toggleDetection ⟨true, false, 2, 1, 30, none⟩ = ⟨true, true, 0, 0, 30, none⟩ ∧
    tick ⟨true, false, 2, 1, 30, none⟩ [] 0 0 = ⟨true, false, 2, 1, 30, none⟩ :=
  ⟨(toggleDetection_amended ⟨true, true, 2, 1, 30, none⟩ [] 0 0).1 rfl,
   (toggleDetection_amended ⟨true, false, 2, 1, 30, none⟩ [] 0 0).2.1 rfl,
   (toggleDetection_amended ⟨true, false, 2, 1, 30, none⟩ [] 0 0).2.2 rfl⟩

/-- C6 (counterexample): on `faceProbeBuffer`, a size-20 window at the origin
is rejected by the source scorer but accepted by the claim's in-bounds
averaging: the forehead sum 4066 is divided by the nominal count 60 by the
source (mean 67.77, failing the contrast check) but by the 58 in-bounds
samples under the claim (mean 70.10, passing every check). -/
theorem isFaceRegion_denominator_counterexample :
    isFaceRegion faceProbeBuffer 20 6 0 0 20 = false ∧
    isFaceRegionSpec faceProbeBuffer 20 6 0 0 20 = true ∧
    foreheadStats faceProbeBuffer 20 0 0 20 = some 4066 := by decide

/-- C6 (amended): the eye bands are averaged over the shared count of sample
pairs whose left and right indices are both in bounds, and the window fails
when that count is zero; but the forehead band is averaged over the nominal
sample count `eyeRegionHeight * size * 0.6` whether or not its samples were
in bounds (out-of-bounds samples are skipped from the sum only).  On a
window lying entirely inside the buffer the two denominators coincide, and
the source scorer agrees with the claim's per-band in-bounds averaging, as
on `faceWindowBuffer`, which both accept. -/
theorem isFaceRegion_band_means :
    (∀ (grayData : List ℕ) (width height x y size : ℕ),
      isFaceRegion grayData width height x y size =
        (if (eyeStats grayData width x y size).2.2 = 0 then false
         else
           let leftAvg := (eyeStats grayData width x y size).1 /
             ((eyeStats grayData width x y size).2.2 : ℚ)
           let rightAvg := (eyeStats grayData width x y size).2.1 /
             ((eyeStats grayData width x y size).2.2 : ℚ)
           let foreheadAvg := jdiv (foreheadStats grayData width x y size)
             (((size / 4 : ℕ) : ℚ) * (size : ℚ) * 0.6)
           decide (leftAvg < 110 ∧ rightAvg < 110) &&
             (jlt (leftAvg + 15) foreheadAvg && jlt (rightAvg + 15) foreheadAvg) &&
             decide (|leftAvg - rightAvg| < 25) &&
             jlt 20 (jsub foreheadAvg (some (min leftAvg rightAvg))))) ∧
    isFaceRegion faceWindowBuffer 20 20 0 0 20 = true ∧
    isFaceRegionSpec faceWindowBuffer 20 20 0 0 20 = true ∧
    foreheadStats faceWindowBuffer 20 0 0 20 = some 5580 ∧
    eyeStats faceWindowBuffer 20 0 0 20 = (800, 800, 20) :=
  ⟨fun _ _ _ _ _ _ => rfl, by decide, by decide, by decide, by decide⟩

/-- Overlap is symmetric: both orders give the same intersection, the same
union, and hence the same ratio. -/
theorem calculateOverlap_comm (a b : Region) : calculateOverlap a b = calculateOverlap b a := by
  simp only [calculateOverlap]
  rw [max_comm b.x a.x, max_comm b.y a.y, min_comm (b.x + b.width) (a.x + a.width),
    min_comm (b.y + b.height) (a.y + a.height)]
  split_ifs with h
  · rfl
  · rw [add_comm (b.width * b.height) (a.width * a.height)]

/-- The accept loop only ever appends to the accumulator. -/
theorem acceptLoop_extends (l : List Region) (acc : List Region) :
    ∃ t, acceptLoop acc l = acc ++ t := by
  induction l generalizing acc with
  | nil => exact ⟨[], by simp [acceptLoop]⟩
  | cons f fs ih =>
    by_cases h : (acc.any fun other => decide (calculateOverlap f other > 0.4)) = true
    · obtain ⟨t, ht⟩ := ih acc
      exact ⟨t, by simp [acceptLoop, h, ht]⟩
    · obtain ⟨t, ht⟩ := ih (acc ++ [f])
      exact ⟨f :: t, by simp [acceptLoop, h, ht]⟩

/-- Everything the accept loop returns came from the accumulator or the
candidate list. -/
theorem mem_acceptLoop {r : Region} (l : List Region) (acc : List Region)
    (h : r ∈ acceptLoop acc l) : r ∈ acc ∨ r ∈ l := by
  induction l generalizing acc with
  | nil => exact Or.inl (by simpa [acceptLoop] using h)
  | cons f fs ih =>
    simp only [acceptLoop] at h
    split at h
    · rcases ih acc h with ha | hl
      · exact Or.inl ha
      · exact Or.inr (List.mem_cons_of_mem f hl)
    · rcases ih (acc ++ [f]) h with ha | hl
      · rcases List.mem_append.mp ha with ha2 | hf
        · exact Or.inl ha2
        · exact Or.inr (List.mem_cons.mpr (Or.inl (List.mem_singleton.mp hf)))
      · exact Or.inr (List.mem_cons_of_mem f hl)

/-- The accept loop preserves pairwise low overlap of the accumulator: a
candidate is appended only after its overlap with every accepted region was
checked, and overlap is symmetric. -/
theorem pairwise_acceptLoop (l : List Region) (acc : List Region)
    (hacc : List.Pairwise (fun a b => calculateOverlap a b ≤ 0.4) acc) :
    List.Pairwise (fun a b => calculateOverlap a b ≤ 0.4) (acceptLoop acc l) := by
  induction l generalizing acc with
  | nil => simpa [acceptLoop] using hacc
  | cons f fs ih =>
    simp only [acceptLoop]
    split
    · exact ih acc hacc
    · next hc =>
      apply ih
      rw [List.pairwise_append]
      refine ⟨hacc, List.pairwise_singleton _ _, ?_⟩
      intro a ha b hb
      rw [List.mem_singleton] at hb
      subst hb
      rw [List.any_eq_true] at hc
      push_neg at hc
      have h2 : ¬ (calculateOverlap b a > 0.4) := by simpa using hc a ha
      rw [calculateOverlap_comm]
      exact not_lt.mp h2

/-- The stable insertion used for area sorting permutes. -/
theorem insertByAreaDesc_perm (r : Region) (l : List Region) :
    List.Perm (insertByAreaDesc r l) (r :: l) := by
  induction l with
  | nil => exact List.Perm.refl _
  | cons h t ih =>
    simp only [insertByAreaDesc]
    split
    · exact List.Perm.refl _
    · exact (List.Perm.cons h ih).trans (List.Perm.swap r h t)

/-- Sorting by area descending permutes the candidate list. -/
theorem sortByAreaDesc_perm (l : List Region) : List.Perm (sortByAreaDesc l) l := by
  induction l with
  | nil => exact List.Perm.refl _
  | cons a t ih =>
    exact (insertByAreaDesc_perm a (sortByAreaDesc t)).trans (List.Perm.cons a ih)

/-- The suppression output is a subset of its input. -/
theorem mem_removeOverlappingFaces {r : Region} (faces : List Region)
    (h : r ∈ removeOverlappingFaces faces) : r ∈ faces := by
  have h1 := List.mem_of_mem_take h
  rcases mem_acceptLoop _ [] h1 with h2 | h2
  · cases h2
  · exact (sortByAreaDesc_perm faces).mem_iff.mp h2

/-- Truncating the uncapped accept loop after three entries is the same as
stopping the loop once three candidates are accepted. -/
theorem acceptLoop_take_three (l : List Region) (acc : List Region) (h : acc.length ≤ 3) :
    (acceptLoop acc l).take 3 = acceptLoopCapped acc l := by
  induction l generalizing acc with
  | nil => simp [acceptLoop, acceptLoopCapped, List.take_of_length_le h]
  | cons f fs ih =>
    by_cases h3 : acc.length = 3
    · simp only [acceptLoopCapped, if_pos h3]
      obtain ⟨t, ht⟩ := acceptLoop_extends (f :: fs) acc
      rw [ht, ← h3, List.take_left]
    · simp only [acceptLoop, acceptLoopCapped, if_neg h3]
      split
      · exact ih acc h
      · exact ih (acc ++ [f]) (by simp only [List.length_append, List.length_singleton]; omega)

/-- C3: the overlap suppression returns a subset of its input of size at most
three in which every pair of retained regions has overlap at most 0.4, and it
equals the spec's greedy largest-area-first algorithm with early stop. -/
theorem removeOverlappingFaces_correct (faces : List Region) :
    ((removeOverlappingFaces faces).all fun r => decide (r ∈ faces)) = true ∧
    (removeOverlappingFaces faces).length ≤ 3 ∧
    List.Pairwise (fun a b => calculateOverlap a b ≤ 0.4) (removeOverlappingFaces faces) ∧
    removeOverlappingFaces faces = removeOverlappingFacesSpec faces := by
  refine ⟨?_, ?_, ?_, ?_⟩
  · rw [List.all_eq_true]
    intro r hr
    rw [decide_eq_true_iff]
    exact mem_removeOverlappingFaces faces hr
  · exact List.length_take_le 3 _
  · exact List.Pairwise.sublist (List.take_sublist 3 _)
      (pairwise_acceptLoop _ [] List.Pairwise.nil)
  · exact acceptLoop_take_three _ [] (by simp)

/-- A filterMap whose function returns `some` on every list element is a map. -/
theorem filterMap_eq_map_of {α β : Type} (l : List α) (f : α → Option β) (g : α → β)
    (h : ∀ a ∈ l, f a = some (g a)) : l.filterMap f = l.map g := by
  induction l with
  | nil => rfl
  | cons a t ih =>
    rw [List.filterMap_cons, h a (List.mem_cons_self a t), List.map_cons,
      ih fun b hb => h b (List.mem_cons_of_mem a hb)]

/-- flatMap respects pointwise equality on the list's members. -/
theorem flatMap_congr_mem {α β : Type} (l : List α) (f g : α → List β)
    (h : ∀ a ∈ l, f a = g a) : l.flatMap f = l.flatMap g := by
  induction l with
  | nil => rfl
  | cons a t ih =>
    rw [List.flatMap_cons, List.flatMap_cons, h a (List.mem_cons_self a t),
      ih fun b hb => h b (List.mem_cons_of_mem a hb)]

/-- Reading any in-bounds index of a constant frame yields its byte value. -/
theorem fullFrame_getElem (v w h i : ℕ) (hi : i < w * h * 4) :
    (fullFrame v w h)[i]? = some v := by
  simp [fullFrame, List.getElem?_replicate, hi]

/-- On the all-255 / all-0 frame pair every in-bounds pixel is counted and
contributes a delta of exactly 255. -/
theorem motionPixelStep_full (w h y x dy dx : ℕ) (q : ℚ) (c : ℕ)
    (hy : y + dy < h) (hx : x + dx < w) :
    motionPixelStep (fullFrame 255 w h) (fullFrame 0 w h) w y x dy (some q, c) dx =
      (some (q + 255), c + 1) := by
  have h1 : (y + dy) * w + (x + dx) + 1 ≤ h * w := by
    calc (y + dy) * w + (x + dx) + 1 = (y + dy) * w + (x + dx + 1) := by ring
      _ ≤ (y + dy) * w + w := Nat.add_le_add_left (Nat.succ_le_of_lt hx) _
      _ = (y + dy + 1) * w := by ring
      _ ≤ h * w := Nat.mul_le_mul_right w (Nat.succ_le_of_lt hy)
  have hidx : ((y + dy) * w + (x + dx)) * 4 + 2 < w * h * 4 := by nlinarith [h1]
  have hlen : ∀ v : ℕ, (fullFrame v w h).length = w * h * 4 := fun v => by
    simp [fullFrame]
  simp only [motionPixelStep, hlen]
  rw [if_pos ⟨by omega, by omega⟩,
    fullFrame_getElem 255 w h _ (by omega), fullFrame_getElem 255 w h _ (by omega),
    fullFrame_getElem 255 w h _ (by omega), fullFrame_getElem 0 w h _ (by omega),
    fullFrame_getElem 0 w h _ (by omega), fullFrame_getElem 0 w h _ (by omega)]
  simp only [jnum, jadd, jdiv, jsub, jabs, Option.map_some']
  refine Prod.ext ?_ rfl
  norm_num

/-- One full in-bounds row of the block loop adds `255 · n` to the sum and
`n` to the count. -/
theorem motionRow_full (w h y x dy : ℕ) (hy : y + dy < h) (hx16 : x + 16 ≤ w) :
    ∀ n, n ≤ 16 → ∀ (q : ℚ) (c : ℕ),
      (List.range n).foldl (motionPixelStep (fullFrame 255 w h) (fullFrame 0 w h) w y x dy)
        (some q, c) = (some (q + 255 * n), c + n) := by
  intro n
  induction n with
  | zero => intro _ q c; simp
  | succ k ih =>
    intro hk q c
    rw [List.range_succ, List.foldl_append, ih (by omega) q c]
    simp only [List.foldl_cons, List.foldl_nil]
    rw [motionPixelStep_full w h y x dy k (q + 255 * k) (c + k) hy (by omega)]
    refine Prod.ext ?_ (by omega)
    push_cast
    ring_nf

/-- On the all-255 / all-0 frame pair a fully in-bounds 16×16 block
accumulates a motion sum of 65280 over 256 counted pixels. -/
theorem motionBlockStats_full (w h x y : ℕ) (hx : x + 16 < w) (hy : y + 16 < h) :
    motionBlockStats (fullFrame 255 w h) (fullFrame 0 w h) w x y = (some 65280, 256) := by
  have hrow : ∀ m, m ≤ 16 → ∀ (q : ℚ) (c : ℕ),
      (List.range m).foldl (motionRowStep (fullFrame 255 w h) (fullFrame 0 w h) w y x)
        (some q, c) = (some (q + 4080 * m), c + 16 * m) := by
    intro m
    induction m with
    | zero => intro _ q c; simp
    | succ k ih =>
      intro hk q c
      rw [List.range_succ, List.foldl_append, ih (by omega) q c]
      simp only [List.foldl_cons, List.foldl_nil, motionRowStep]
      rw [motionRow_full w h y x k (by omega) (by omega) 16 le_rfl]
      refine Prod.ext ?_ (by simp; omega)
      push_cast
      ring_nf
  have h16 := hrow 16 le_rfl 0 0
  simp only [motionBlockStats, h16]
  norm_num

/-- Characterization of `detectMotion` on the claim's frame pair: exactly the
visited blocks are emitted (every visited block has average delta 255). -/
theorem detectMotion_fullFrames (w h : ℕ) :
    detectMotion (fullFrame 255 w h) (fullFrame 0 w h) w h =
      ((List.range h).filter fun y => y % 16 == 0 && y + 16 < h).flatMap fun (y : ℕ) =>
        ((List.range w).filter fun x => x % 16 == 0 && x + 16 < w).map fun (x : ℕ) =>
          (⟨(x : ℚ), (y : ℚ), 16, 16⟩ : Region) := by
  simp only [detectMotion]
  apply flatMap_congr_mem
  intro y hy
  have hy16 : y + 16 < h := by
    have h2 := (List.mem_filter.mp hy).2
    simp only [Bool.and_eq_true, decide_eq_true_eq] at h2
    exact h2.2
  apply filterMap_eq_map_of
  intro x hx
  have hx16 : x + 16 < w := by
    have h2 := (List.mem_filter.mp hx).2
    simp only [Bool.and_eq_true, decide_eq_true_eq] at h2
    exact h2.2
  rw [motionBlockStats_full w h x y hx16 hy16]
  rw [if_pos]
  refine ⟨by norm_num, ?_⟩
  simp only [jdiv, jlt, Option.map_some]
  norm_num

/-- Every region emitted by `detectMotion` is a 16×16 block at a 16-aligned
position with `x + 16 < width` and `y + 16 < height` (strictly): the last
full block row and column are never visited. -/
theorem detectMotion_mem {r : Region} (current previous : List ℕ) (w h : ℕ)
    (hr : r ∈ detectMotion current previous w h) :
    ∃ xn yn : ℕ, r = ⟨(xn : ℚ), (yn : ℚ), 16, 16⟩ ∧ xn % 16 = 0 ∧ yn % 16 = 0 ∧
      xn + 16 < w ∧ yn + 16 < h := by
  simp only [detectMotion, List.mem_flatMap, List.mem_filterMap, List.mem_filter,
    List.mem_range, Bool.and_eq_true, beq_iff_eq, decide_eq_true_eq] at hr
  obtain ⟨y, ⟨hyr, hy0, hy16⟩, x, ⟨hxr, hx0, hx16⟩, hopt⟩ := hr
  split at hopt
  · exact ⟨x, y, (Option.some_inj.mp hopt).symm, hx0, hy0, hx16, hy16⟩
  · cases hopt

/-- C2 (counterexample): for the all-0 then all-255 frame pair at 32×32 (both
dimensions multiples of 16), the only emitted motion block is (0,0,16,16):
the full block at (16,16) is never visited, and no emitted block covers the
pixel (16,16), so the motion blocks do not cover the whole buffer. -/
theorem detectMotion_coverage_counterexample :
    detectMotion (fullFrame 255 32 32) (fullFrame 0 32 32) 32 32 = [⟨0, 0, 16, 16⟩] ∧
    ¬ ∃ r ∈ detectMotion (fullFrame 255 32 32) (fullFrame 0 32 32) 32 32,
        r.x ≤ 16 ∧ (16 : ℚ) < r.x + r.width ∧ r.y ≤ 16 ∧ (16 : ℚ) < r.y + r.height := by
  have h := detectMotion_fullFrames 32 32
  refine ⟨by rw [h]; decide, ?_⟩
  rw [h]
  decide

/-- C2 (amended): motion detection emits only 16-aligned 16×16 blocks with
`x + 16 < width` and `y + 16 < height`, so besides partial edge blocks the
last full block row and column are also skipped; for the all-0 → all-255
frames the emitted blocks are exactly the visited ones: at 32×32 only
(0,0,16,16) is emitted, and at 16×16 nothing is emitted even though the
frame is one full block. -/
theorem detectMotion_block_traversal :
    (∀ (current previous : List ℕ) (width height : ℕ) (r : Region),
      r ∈ detectMotion current previous width height →
        ∃ xn yn : ℕ, r = ⟨(xn : ℚ), (yn : ℚ), 16, 16⟩ ∧ xn % 16 = 0 ∧ yn % 16 = 0 ∧
          xn + 16 < width ∧ yn + 16 < height) ∧
    detectMotion (fullFrame 255 32 32) (fullFrame 0 32 32) 32 32 = [⟨0, 0, 16, 16⟩] ∧
    detectMotion (fullFrame 255 16 16) (fullFrame 0 16 16) 16 16 = [] := by
  refine ⟨fun current previous width height r hr => detectMotion_mem current previous
    width height hr, ?_, ?_⟩
  · rw [detectMotion_fullFrames]; decide
  · rw [detectMotion_fullFrames]; decide

/-- Witness for C2 (amended): the emitted block (0,0,16,16) of the 32×32
run satisfies the geometry bound. -/
theorem detectMotion_block_traversal_witness :
    ∃ xn yn : ℕ, (⟨0, 0, 16, 16⟩ : Region) = ⟨(xn : ℚ), (yn : ℚ), 16, 16⟩ ∧
      xn % 16 = 0 ∧ yn % 16 = 0 ∧ xn + 16 < 32 ∧ yn + 16 < 32 := by
  have h := detectMotion_block_traversal
  exact h.1 (fullFrame 255 32 32) (fullFrame 0 32 32) 32 32 ⟨0, 0, 16, 16⟩
    (h.2.1 ▸ List.mem_singleton.mpr rfl)

/-- Every skin block is a 12×12 block at a position with `x + 12 < width`
and `y + 12 < height`. -/
theorem detectSkinRegions_mem {r : Region} (data : List ℕ) (w h : ℕ)
    (hr : r ∈ detectSkinRegions data w h) :
    ∃ xn yn : ℕ, r = ⟨(xn : ℚ), (yn : ℚ), 12, 12⟩ ∧ xn + 12 < w ∧ yn + 12 < h := by
  simp only [detectSkinRegions, List.mem_flatMap, List.mem_filterMap, List.mem_filter,
    List.mem_range, Bool.and_eq_true, beq_iff_eq, decide_eq_true_eq] at hr
  obtain ⟨y, ⟨hyr, hy0, hy12⟩, x, ⟨hxr, hx0, hx12⟩, hopt⟩ := hr
  split at hopt
  · exact ⟨x, y, (Option.some_inj.mp hopt).symm, hx12, hy12⟩
  · cases hopt

/-- C7: every region emitted by the heuristic pipeline — faces after
suppression and hands after the shape filter, both rescaled by 2 from the
working resolution `width × height` to the original frame resolution
`2 width × 2 height` — satisfies the Region invariant `x, y ≥ 0`,
`x + width ≤ frameWidth`, `y + height ≤ frameHeight`. -/
theorem detection_regions_in_bounds (grayData data : List ℕ)
    (previousFrame : Option (List ℕ)) (width height : ℕ) :
    ((detectFallbackFaces grayData width height).all fun r =>
      decide (0 ≤ r.x ∧ 0 ≤ r.y ∧ r.x + r.width ≤ 2 * (width : ℚ) ∧
        r.y + r.height ≤ 2 * (height : ℚ))) = true ∧
    ((detectFallbackHands data previousFrame width height).all fun r =>
      decide (0 ≤ r.x ∧ 0 ≤ r.y ∧ r.x + r.width ≤ 2 * (width : ℚ) ∧
        r.y + r.height ≤ 2 * (height : ℚ))) = true := by
  constructor
  · rw [List.all_eq_true]
    intro r hr
    rw [decide_eq_true_iff]
    simp only [detectFallbackFaces] at hr
    have h1 := mem_removeOverlappingFaces _ hr
    simp only [List.mem_flatMap, List.mem_filterMap, List.mem_filter, List.mem_range,
      Bool.and_eq_true, beq_iff_eq, decide_eq_true_eq] at h1
    obtain ⟨size, ⟨hsr, hsc⟩, y, ⟨hyr, hy0, hys⟩, x, ⟨hxr, hx0, hxs⟩, hopt⟩ := h1
    split at hopt
    · have heq := (Option.some_inj.mp hopt).symm
      subst heq
      have hxq : (x : ℚ) + size ≤ width := by exact_mod_cast hxs
      have hyq : (y : ℚ) + size ≤ height := by exact_mod_cast hys
      refine ⟨by positivity, by positivity, by push_cast; linarith, by push_cast; linarith⟩
    · cases hopt
  · rw [List.all_eq_true]
    intro r hr
    rw [decide_eq_true_iff]
    simp only [detectFallbackHands, List.mem_map, List.mem_filter] at hr
    obtain ⟨c, ⟨hc, hshape⟩, heq⟩ := hr
    rw [mem_combineMotionAndSkin] at hc
    obtain ⟨m, hm, s, hs, hov, hcfuse⟩ := hc
    obtain ⟨sx, sy, hseq, hsx, hsy⟩ := detectSkinRegions_mem data width height hs
    cases previousFrame with
    | none => exact absurd hm (List.not_mem_nil m)
    | some prev =>
      obtain ⟨mx, my, hmeq, hmx0, hmy0, hmx, hmy⟩ :=
        detectMotion_mem data prev width height hm
      subst hcfuse hmeq hseq
      rw [← heq]
      simp only [fuseRegion]
      have hmxq : (mx : ℚ) + 16 ≤ width := by exact_mod_cast le_of_lt hmx
      have hmyq : (my : ℚ) + 16 ≤ height := by exact_mod_cast le_of_lt hmy
      have hsxq : (sx : ℚ) + 12 ≤ width := by exact_mod_cast le_of_lt hsx
      have hsyq : (sy : ℚ) + 12 ≤ height := by exact_mod_cast le_of_lt hsy
      have hminx : (0 : ℚ) ≤ min (mx : ℚ) (sx : ℚ) :=
        le_min (Nat.cast_nonneg mx) (Nat.cast_nonneg sx)
      have hminy : (0 : ℚ) ≤ min (my : ℚ) (sy : ℚ) :=
        le_min (Nat.cast_nonneg my) (Nat.cast_nonneg sy)
      have hmaxx : max ((mx : ℚ) + 16) ((sx : ℚ) + 12) ≤ width := max_le hmxq hsxq
      have hmaxy : max ((my : ℚ) + 16) ((sy : ℚ) + 12) ≤ height := max_le hmyq hsyq
      refine ⟨by positivity, by positivity, by linarith, by linarith⟩

end Vis3D
